import Mathlib

/-!
Shallow embedding of the two CAN-to-TCP bridge programs:
`src/Firmware/can_wifi_transmitter/main/bridge.c` (the wire-format variant)
and `src/Firmware/can_tcp_project/main/main.c` (the raw-payload variant).

Machine integers are modelled as `Nat` (unsigned C types: `uint32_t`
identifier, `uint8_t` DLC and payload bytes) and `Int` (the signed returns of
`socket`, `connect`, `send`).  The 8-byte `data` array of `twai_message_t` is a
`List Nat`; well-formed driver output has `data.length = 8`, each byte `< 256`,
and `identifier < 2^32`.  Socket calls are modelled as environment-supplied
return values; the observable effect of an iteration is the list of events
(send calls with their byte payloads, log lines) it produces.
-/

/-- The fields of `twai_message_t` (ESP-IDF TWAI driver) used by both
programs: 32-bit `identifier`, `data_length_code` (a `uint8_t`, nominally
0..8) and the fixed 8-byte `data` buffer, modelled as a byte list. -/
structure twai_message_t where
  identifier : Nat
  data_length_code : Nat
  data : List Nat
deriving DecidableEq, Repr

/-- Well-formed driver output: 32-bit identifier, the 8-byte `uint8_t data[8]`
buffer. (The DLC bound 0..8 is stated per-theorem, since the programs never
check it.) -/
def twai_message_t.WF (m : twai_message_t) : Prop :=
  m.identifier < 2 ^ 32 ∧ m.data.length = 8 ∧ ∀ b ∈ m.data, b < 256

/-- Result of one `twai_receive(&message, pdMS_TO_TICKS(1000))` call:
`ESP_OK` with a frame, `ESP_ERR_TIMEOUT`, or any other error code. -/
inductive RecvResult where
  | ok (m : twai_message_t)
  | timeout
  | rxError (code : Int)
deriving DecidableEq, Repr

/-- The receive timeout both programs pass to `twai_receive`, in ms. -/
def receiveTimeoutMs : Nat := 1000

/-- Byte-wise `memcpy(&buf[off], src, src.length)`: successive `List.set`
writes of `src` into `buf` starting at index `off`. -/
def storeBytes : List Nat → Nat → List Nat → List Nat
  | buf, _, [] => buf
  | buf, off, b :: rest => storeBytes (buf.set off b) (off + 1) rest

/-- `tx_buf` as built by bridge.c lines 64-71: `uint8_t tx_buf[13]` zeroed by
`memset`, then the four identifier bytes (big-endian, `(id >> k) & 0xFF`), the
DLC byte, and `memcpy(&tx_buf[5], message.data, message.data_length_code)`.
The `memcpy` is modelled as copying the bytes that exist in the 8-byte source
buffer (`data.take data_length_code`); for `data_length_code > 8` the C code
reads and writes out of bounds, which the model cannot represent. -/
def buildTxBuf (m : twai_message_t) : List Nat :=
  let buf0 := List.replicate 13 0
  let buf1 := buf0.set 0 ((m.identifier >>> 24) % 256)
  let buf2 := buf1.set 1 ((m.identifier >>> 16) % 256)
  let buf3 := buf2.set 2 ((m.identifier >>> 8) % 256)
  let buf4 := buf3.set 3 (m.identifier % 256)
  let buf5 := buf4.set 4 m.data_length_code
  storeBytes buf5 5 (m.data.take m.data_length_code)

/-- The bytes handed to `send(sock, tx_buf, to_send, 0)` with
`to_send = 5 + message.data_length_code` (bridge.c lines 73-74): the first
`to_send` bytes of `tx_buf`. -/
def sentBytes (m : twai_message_t) : List Nat :=
  (buildTxBuf m).take (5 + m.data_length_code)

lemma storeBytes_eq (src : List Nat) : ∀ (buf : List Nat) (off : Nat),
    off + src.length ≤ buf.length →
    storeBytes buf off src = buf.take off ++ src ++ buf.drop (off + src.length) := by
  induction src with
  | nil =>
    intro buf off h
    simp [storeBytes, List.take_append_drop]
  | cons b rest ih =>
    intro buf off h
    simp only [List.length_cons] at h
    have hoff : off < buf.length := by omega
    rw [storeBytes, ih (buf.set off b) (off + 1) (by simp; omega)]
    rw [List.set_eq_take_cons_drop b hoff]
    have hlen : (buf.take off).length = off := List.length_take_of_le (by omega)
    have h1 : List.take (off + 1) (buf.take off) = buf.take off := by
      apply List.take_of_length_le; omega
    have h2 : off + 1 - (buf.take off).length = 1 := by omega
    have h3 : List.drop (off + 1 + rest.length) (buf.take off) = [] := by
      apply List.drop_eq_nil_of_le; omega
    have h4 : off + 1 + rest.length - (buf.take off).length = rest.length + 1 := by
      omega
    rw [List.take_append_eq_append_take, List.drop_append_eq_append_drop,
      h1, h2, h3, h4]
    simp [List.drop_drop]
    congr 1
    omega

/-- For a well-formed frame the sent bytes are the 5-byte big-endian header
followed by exactly the first `data_length_code` payload bytes. -/
lemma sentBytes_eq (m : twai_message_t) (h8 : m.data_length_code ≤ 8)
    (hl : m.data.length = 8) :
    sentBytes m =
      [(m.identifier >>> 24) % 256, (m.identifier >>> 16) % 256,
       (m.identifier >>> 8) % 256, m.identifier % 256, m.data_length_code] ++
      m.data.take m.data_length_code := by
  have hsrc : (m.data.take m.data_length_code).length = m.data_length_code := by
    simp [List.length_take, hl]; omega
  have hbuf : buildTxBuf m =
      storeBytes
        [(m.identifier >>> 24) % 256, (m.identifier >>> 16) % 256,
         (m.identifier >>> 8) % 256, m.identifier % 256, m.data_length_code,
         0, 0, 0, 0, 0, 0, 0, 0] 5 (m.data.take m.data_length_code) := rfl
  rw [sentBytes, hbuf, storeBytes_eq _ _ _ (by simp [hsrc]; omega)]
  rw [List.take_append_eq_append_take, List.take_append_eq_append_take]
  have e1 : List.take (5 + m.data_length_code)
      (List.take 5
        [(m.identifier >>> 24) % 256, (m.identifier >>> 16) % 256,
         (m.identifier >>> 8) % 256, m.identifier % 256, m.data_length_code,
         0, 0, 0, 0, 0, 0, 0, 0]) =
      List.take 5
        [(m.identifier >>> 24) % 256, (m.identifier >>> 16) % 256,
         (m.identifier >>> 8) % 256, m.identifier % 256, m.data_length_code,
         0, 0, 0, 0, 0, 0, 0, 0] := by
    apply List.take_of_length_le; simp
  rw [e1]
  simp [hsrc, List.take_take]
  have e2 : 5 + m.data_length_code - (m.data_length_code + 1 + 1 + 1 + 1 + 1) = 0 := by
    omega
  rw [e2]
  simp

/-- The mutable state the bridge.c receive-and-forward loop (lines 59-86)
carries between iterations: only the socket descriptor `sock`, created and
connected once before the loop.  The program has no connection-state
variable and the loop body never assigns `sock`. -/
structure BridgeState where
  sock : Int
deriving DecidableEq, Repr

/-- Observable actions of one bridge.c loop iteration: the `send` call (with
the count passed as its length argument and the defined bytes of `tx_buf`),
the four `printf` log lines, and `close` (present in the event alphabet so
that its absence from every iteration trace is expressible; the `close` after
the `while (1)` loop is unreachable). -/
inductive Event where
  | sendCall (sock : Int) (toSend : Nat) (bytes : List Nat)
  | logForwarded (id : Nat) (dlc : Nat)
  | logSendFail
  | logTimeout
  | logBusError (code : Int)
  | closeCall (sock : Int)
deriving DecidableEq, Repr

/-- Environment input consumed by one bridge.c loop iteration: the
`twai_receive` outcome and the value `send` would return if called. -/
structure LoopInput where
  recv : RecvResult
  sendRet : Int
deriving DecidableEq, Repr

/-- One iteration of the bridge.c `while (1)` loop (lines 59-86): on `ESP_OK`
build `tx_buf`, call `send(sock, tx_buf, 5 + data_length_code, 0)` and log
failure iff the return is negative; on `ESP_ERR_TIMEOUT` log the idle line;
on any other receive error log it.  Every branch leaves the state unchanged
and falls through to the next iteration: there is no `break`, `return`,
`close` or reassignment of `sock` in the loop body. -/
def loopStep (s : BridgeState) (inp : LoopInput) : BridgeState × List Event :=
  match inp.recv with
  | .ok m =>
      (s, [Event.sendCall s.sock (5 + m.data_length_code) (sentBytes m),
           if inp.sendRet < 0 then Event.logSendFail
           else Event.logForwarded m.identifier m.data_length_code])
  | .timeout => (s, [Event.logTimeout])
  | .rxError c => (s, [Event.logBusError c])

/-- Run the bridge.c loop over a finite prefix of environment inputs,
collecting the event trace. -/
def bridgeRun : BridgeState → List LoopInput → BridgeState × List Event
  | s, [] => (s, [])
  | s, i :: rest =>
      let p := loopStep s i
      let q := bridgeRun p.1 rest
      (q.1, p.2 ++ q.2)

/-- Environment outcomes of the four fallible boot steps of bridge.c
`app_main` before the loop: `twai_driver_install`, `twai_start`, `socket`
(its return value) and `connect` (its return value). -/
structure BootEnv where
  installOk : Bool
  startOk : Bool
  socketRet : Int
  connectRet : Int
deriving DecidableEq, Repr

/-- How bridge.c `app_main` (lines 19-57) can leave its boot sequence: each
failed step prints and `return`s (ending `app_main`), otherwise the receive
loop is entered with the connected socket. -/
inductive BootOutcome where
  | haltInstallFail
  | haltStartFail
  | haltSocketFail
  | haltConnectFail
  | enterLoop (s : BridgeState)
deriving DecidableEq, Repr

/-- The boot sequence of bridge.c `app_main`: install and start the TWAI
driver (halt on failure), create the socket (halt if negative), `connect`
(halt, after `close(sock)`, if the return is nonzero), else enter the loop.
There is no retry of any step. -/
def app_main_boot (e : BootEnv) : BootOutcome :=
  if e.installOk = false then BootOutcome.haltInstallFail
  else if e.startOk = false then BootOutcome.haltStartFail
  else if e.socketRet < 0 then BootOutcome.haltSocketFail
  else if e.connectRet ≠ 0 then BootOutcome.haltConnectFail
  else BootOutcome.enterLoop ⟨e.socketRet⟩

/-- Number of `connect` calls bridge.c `app_main` makes under environment
`e`: one if control reaches line 52, zero if an earlier step failed.  No
code path calls `connect` more than once. -/
def connectAttempts (e : BootEnv) : Nat :=
  if e.installOk = false then 0
  else if e.startOk = false then 0
  else if e.socketRet < 0 then 0
  else 1

/-- main.c `connect_tcp` (lines 86-109) as a function from the environment's
`socket` and `connect` returns to the final value of the global
`tcp_socket`: a failed `socket` leaves the negative descriptor in place, a
failed `connect` closes and stores `-1`, success keeps the descriptor. -/
def connect_tcp (socketRet connectRet : Int) : Int :=
  if socketRet < 0 then socketRet
  else if connectRet < 0 then -1
  else socketRet

/-- State visible to main.c `can_receive_task`: the global `tcp_socket`
(main.c line 25).  The task reads it and never writes it. -/
structure TcpState where
  tcp_socket : Int
deriving DecidableEq, Repr

/-- Observable actions of one `can_receive_task` iteration: the per-frame
`ESP_LOGI` line and the `send(tcp_socket, message.data,
message.data_length_code, 0)` call. -/
inductive TcpEvent where
  | logReceived (id : Nat)
  | sendCall (sock : Int) (len : Nat) (bytes : List Nat)
deriving DecidableEq, Repr

/-- Whether a `can_receive_task` event is a `send` call. -/
def TcpEvent.isSend : TcpEvent → Bool
  | .sendCall _ _ _ => true
  | _ => false

/-- One iteration of main.c `can_receive_task` (lines 123-140): on `ESP_OK`
log the frame and, only if `tcp_socket > 0`, pass the first
`data_length_code` bytes of `message.data` to `send` — no header bytes of
any kind; on timeout or any receive error do nothing (there is no `else`
branch).  The task never assigns `tcp_socket` and never calls
`connect_tcp`. -/
def canReceiveIter (s : TcpState) (r : RecvResult) : TcpState × List TcpEvent :=
  match r with
  | .ok m =>
      (s, TcpEvent.logReceived m.identifier ::
          (if s.tcp_socket > 0 then
            [TcpEvent.sendCall s.tcp_socket m.data_length_code
              (m.data.take m.data_length_code)]
          else []))
  | _ => (s, [])

/-- Run `can_receive_task` over a finite prefix of receive results. -/
def tcpRun : TcpState → List RecvResult → TcpState × List TcpEvent
  | s, [] => (s, [])
  | s, r :: rest =>
      let p := canReceiveIter s r
      let q := tcpRun p.1 rest
      (q.1, p.2 ++ q.2)

/-- Modelled from the spec: the test-only wire decoder of spec §8, the
inverse of the §6 layout (the repository contains no decoder).  Reads the
four big-endian identifier bytes, the length byte, and requires exactly
`length` payload bytes to follow. -/
def decodeWire (bs : List Nat) : Option (Nat × Nat × List Nat) :=
  match bs with
  | b0 :: b1 :: b2 :: b3 :: b4 :: rest =>
      if rest.length = b4 then
        some (((b0 * 256 + b1) * 256 + b2) * 256 + b3, b4, rest)
      else none
  | _ => none

/-- The concrete frame of the spec §8 scenario: identifier `0x123`, DLC 2,
payload `AA BB` (remaining bytes of the 8-byte buffer zero). -/
def frame123 : twai_message_t :=
  ⟨0x123, 2, [0xAA, 0xBB, 0, 0, 0, 0, 0, 0]⟩

/-- A frame whose DLC field exceeds 8, as §3 says a faulty bus driver could
deliver. -/
def frameOver : twai_message_t :=
  ⟨0x123, 9, [1, 2, 3, 4, 5, 6, 7, 8]⟩

/-- Recomposing the four stored big-endian bytes recovers a 32-bit
identifier. -/
lemma id_bytes_recompose (id : Nat) (h : id < 2 ^ 32) :
    (((id >>> 24) % 256 * 256 + (id >>> 16) % 256) * 256 + (id >>> 8) % 256)
      * 256 + id % 256 = id := by
  simp only [Nat.shiftRight_eq_div_pow]
  norm_num at h ⊢
  omega

/-- Every branch of the bridge.c loop body leaves the loop state unchanged. -/
lemma loopStep_fst (s : BridgeState) (i : LoopInput) : (loopStep s i).1 = s := by
  cases h : i.recv <;> simp [loopStep, h]

/-- Running the bridge.c loop over any input prefix leaves the state
unchanged: no iteration closes or replaces the socket. -/
lemma bridgeRun_fst (inputs : List LoopInput) :
    ∀ s : BridgeState, (bridgeRun s inputs).1 = s := by
  induction inputs with
  | nil => intro s; rfl
  | cons i rest ih =>
    intro s
    simp only [bridgeRun]
    rw [loopStep_fst]
    exact ih s

/-- C1: for every received frame with `data_length_code ≤ 8` the bytes the
loop passes to `send` are exactly `5 + data_length_code` many — the four
big-endian identifier bytes, the DLC byte, then the first `data_length_code`
payload bytes with no padding — and the §8 scenario frame (id `0x123`, DLC 2,
payload `AA BB`) encodes to the seven bytes `00 00 01 23 02 AA BB`. -/
theorem wire_format_exact (m : twai_message_t) (h8 : m.data_length_code ≤ 8)
    (hl : m.data.length = 8) :
    (sentBytes m).length = 5 + m.data_length_code ∧
    sentBytes m =
      [(m.identifier >>> 24) % 256, (m.identifier >>> 16) % 256,
       (m.identifier >>> 8) % 256, m.identifier % 256, m.data_length_code] ++
      m.data.take m.data_length_code ∧
    (∀ (s : BridgeState) (r : Int),
       (loopStep s ⟨RecvResult.ok m, r⟩).2.head? =
         some (Event.sendCall s.sock (5 + m.data_length_code) (sentBytes m))) ∧
    sentBytes frame123 = [0x00, 0x00, 0x01, 0x23, 0x02, 0xAA, 0xBB] := by
  refine ⟨?_, sentBytes_eq m h8 hl, ?_, by decide⟩
  · rw [sentBytes_eq m h8 hl]
    simp [List.length_take, hl]
    omega
  · intro s r
    simp [loopStep]

theorem wire_format_exact_witness :
    (sentBytes frame123).length = 5 + frame123.data_length_code ∧
    sentBytes frame123 = [0x00, 0x00, 0x01, 0x23, 0x02, 0xAA, 0xBB] :=
  ⟨(wire_format_exact frame123 (by decide) (by decide)).1,
   (wire_format_exact frame123 (by decide) (by decide)).2.2.2⟩

/-- C5: decoding the sent bytes with the §6 inverse recovers the identifier,
the DLC and the first `data_length_code` payload bytes of every well-formed
frame. -/
theorem encode_decode_roundtrip (m : twai_message_t)
    (hid : m.identifier < 2 ^ 32) (h8 : m.data_length_code ≤ 8)
    (hl : m.data.length = 8) :
    decodeWire (sentBytes m) =
      some (m.identifier, m.data_length_code, m.data.take m.data_length_code) := by
  rw [sentBytes_eq m h8 hl]
  have hsrc : (m.data.take m.data_length_code).length = m.data_length_code := by
    simp [List.length_take, hl]
    omega
  simp [decodeWire, hsrc, id_bytes_recompose m.identifier hid]

theorem encode_decode_roundtrip_witness :
    decodeWire (sentBytes frame123) = some (0x123, 2, [0xAA, 0xBB]) :=
  encode_decode_roundtrip frame123 (by decide) (by decide) (by decide)

/-- C6: if every receive in a run times out, the bridge.c loop makes no
`send` call and does not change its state (the trace is one idle log line
per iteration), and a `can_receive_task` iteration on a timeout does nothing
at all. -/
theorem timeout_is_noop (s : BridgeState) (inputs : List LoopInput)
    (h : ∀ i ∈ inputs, i.recv = RecvResult.timeout) :
    bridgeRun s inputs = (s, List.replicate inputs.length Event.logTimeout) ∧
    ∀ t : TcpState, canReceiveIter t RecvResult.timeout = (t, []) := by
  refine ⟨?_, fun t => rfl⟩
  induction inputs with
  | nil => rfl
  | cons i rest ih =>
    have hi : i.recv = RecvResult.timeout := h i (List.mem_cons_self i rest)
    have hr : ∀ j ∈ rest, j.recv = RecvResult.timeout :=
      fun j hj => h j (List.mem_cons_of_mem i hj)
    simp [bridgeRun, loopStep, hi, ih hr, List.replicate_succ]

theorem timeout_is_noop_witness :
    bridgeRun ⟨3⟩ [⟨RecvResult.timeout, 0⟩, ⟨RecvResult.timeout, -1⟩] =
      (⟨3⟩, [Event.logTimeout, Event.logTimeout]) ∧
    canReceiveIter ⟨-1⟩ RecvResult.timeout = (⟨-1⟩, []) := by
  have h := timeout_is_noop ⟨3⟩
    [⟨RecvResult.timeout, 0⟩, ⟨RecvResult.timeout, -1⟩] (by decide)
  exact ⟨h.1, h.2 ⟨-1⟩⟩

/-- C2 (code bug): bridge.c never checks `data_length_code`.  A frame whose
DLC field is 9 is not dropped: the loop still calls `send`, asking it to
transmit `5 + 9 = 14` bytes of the 13-byte `tx_buf` (an out-of-bounds read,
after `memcpy` already read past `data[8]`), and logs it as forwarded. -/
theorem overlong_frame_not_dropped :
    loopStep ⟨3⟩ ⟨RecvResult.ok frameOver, 0⟩ =
      (⟨3⟩, [Event.sendCall 3 14 [0, 0, 1, 0x23, 9, 1, 2, 3, 4, 5, 6, 7, 8],
             Event.logForwarded 0x123 9]) := by
  decide

/-- C3 (code bug): neither variant ever retries a failed connect.  In
bridge.c a nonzero `connect` return makes `app_main` return after exactly one
attempt, so the receive loop is never entered; in main.c a failed
`connect_tcp` leaves `tcp_socket = -1` and the receive task never changes
it. -/
theorem connect_fail_never_retried :
    app_main_boot ⟨true, true, 3, -1⟩ = BootOutcome.haltConnectFail ∧
    connectAttempts ⟨true, true, 3, -1⟩ = 1 ∧
    connect_tcp 4 (-1) = -1 ∧
    (tcpRun ⟨connect_tcp 4 (-1)⟩
      [RecvResult.ok frame123, RecvResult.timeout]).1 = ⟨-1⟩ := by
  decide

/-- C4 (code bug): when `send` returns a negative value, bridge.c only logs
"Failed to send" and continues the loop with the same socket: the state is
unchanged, no `close` happens, and no error state is recorded (the program
has no connection-state variable at all). -/
theorem send_failure_keeps_socket :
    loopStep ⟨7⟩ ⟨RecvResult.ok frame123, -1⟩ =
      (⟨7⟩, [Event.sendCall 7 7 [0, 0, 1, 0x23, 2, 0xAA, 0xBB],
             Event.logSendFail]) ∧
    Event.closeCall 7 ∉ (loopStep ⟨7⟩ ⟨RecvResult.ok frame123, -1⟩).2 := by
  decide

/-- C7 counterexample: a `connect` failure is not recovered locally — with
the driver installed and started and a valid socket, a nonzero `connect`
return ends `app_main` (outcome `haltConnectFail`), so the process terminates
because of a connect fault instead of retrying. -/
theorem connect_failure_halts :
    app_main_boot ⟨true, true, 5, -2⟩ = BootOutcome.haltConnectFail ∧
    connectAttempts ⟨true, true, 5, -2⟩ = 1 := by
  decide

/-- C7 (amended): boot-time driver install or start failure halts `app_main`
before the loop; a per-receive bus error or a send failure is recovered
locally (the iteration only logs, the state is unchanged, and the loop goes
on to its next iteration for any input prefix); but a connect failure — which
in this code can only happen at boot — also halts `app_main` rather than
being retried. -/
theorem fatal_boot_recoverable_runtime (e : BootEnv) (s : BridgeState)
    (inputs : List LoopInput) (c : Int) (m : twai_message_t) (n : Int) :
    (e.installOk = false → app_main_boot e = BootOutcome.haltInstallFail) ∧
    (e.installOk = true → e.startOk = false →
      app_main_boot e = BootOutcome.haltStartFail) ∧
    (e.installOk = true → e.startOk = true → 0 ≤ e.socketRet →
      e.connectRet ≠ 0 → app_main_boot e = BootOutcome.haltConnectFail) ∧
    loopStep s ⟨RecvResult.rxError c, n⟩ = (s, [Event.logBusError c]) ∧
    (n < 0 → loopStep s ⟨RecvResult.ok m, n⟩ =
      (s, [Event.sendCall s.sock (5 + m.data_length_code) (sentBytes m),
           Event.logSendFail])) ∧
    (bridgeRun s inputs).1 = s := by
  refine ⟨?_, ?_, ?_, by simp [loopStep], ?_, bridgeRun_fst inputs s⟩
  · intro h1
    simp [app_main_boot, h1]
  · intro h1 h2
    simp [app_main_boot, h1, h2]
  · intro h1 h2 h3 h4
    simp [app_main_boot, h1, h2, not_lt.mpr h3, h4]
  · intro hn
    simp [loopStep, hn]

theorem fatal_boot_recoverable_runtime_witness :
    app_main_boot ⟨false, true, 3, 0⟩ = BootOutcome.haltInstallFail ∧
    loopStep ⟨3⟩ ⟨RecvResult.rxError 7, 0⟩ = (⟨3⟩, [Event.logBusError 7]) ∧
    (bridgeRun ⟨3⟩
      [⟨RecvResult.rxError 7, 0⟩, ⟨RecvResult.ok frame123, -1⟩]).1 = ⟨3⟩ := by
  have h := fatal_boot_recoverable_runtime ⟨false, true, 3, 0⟩ ⟨3⟩
    [⟨RecvResult.rxError 7, 0⟩, ⟨RecvResult.ok frame123, -1⟩] 7 frame123 (-1)
  exact ⟨h.1 rfl, h.2.2.2.1, h.2.2.2.2.2⟩

/-- C8: when `tcp_socket` is positive, one `can_receive_task` iteration on a
frame sends exactly the first `data_length_code` bytes of the raw payload —
which is never the §6 wire message, so no identifier, length byte or header
of any kind precedes the payload on this variant's stream. -/
theorem raw_payload_no_header (s : TcpState) (m : twai_message_t)
    (hs : 0 < s.tcp_socket) (h8 : m.data_length_code ≤ 8)
    (hl : m.data.length = 8) :
    canReceiveIter s (RecvResult.ok m) =
      (s, [TcpEvent.logReceived m.identifier,
           TcpEvent.sendCall s.tcp_socket m.data_length_code
             (m.data.take m.data_length_code)]) ∧
    (m.data.take m.data_length_code).length = m.data_length_code ∧
    m.data.take m.data_length_code ≠ sentBytes m := by
  have hsrc : (m.data.take m.data_length_code).length = m.data_length_code := by
    simp [List.length_take, hl]
    omega
  refine ⟨by simp [canReceiveIter, hs], hsrc, ?_⟩
  intro hcontra
  have h2 := congrArg List.length hcontra
  rw [sentBytes_eq m h8 hl] at h2
  simp [hsrc] at h2
  omega

theorem raw_payload_no_header_witness :
    canReceiveIter ⟨3⟩ (RecvResult.ok frame123) =
      (⟨3⟩, [TcpEvent.logReceived 0x123,
             TcpEvent.sendCall 3 2 [0xAA, 0xBB]]) ∧
    ([0xAA, 0xBB] : List Nat).length = 2 ∧
    ([0xAA, 0xBB] : List Nat) ≠ sentBytes frame123 :=
  raw_payload_no_header ⟨3⟩ frame123 (by decide) (by decide) (by decide)

/-- C9: bridge.c treats any nonnegative `send` return — including a short
write — exactly like full success: same state, same forwarded log, identical
iteration result to one whose `send` returned all `5 + data_length_code`
bytes; only a strictly negative return takes the failure branch, and even
that only logs. -/
theorem short_write_is_success (s : BridgeState) (m : twai_message_t)
    (n : Int) :
    (0 ≤ n →
      loopStep s ⟨RecvResult.ok m, n⟩ =
        (s, [Event.sendCall s.sock (5 + m.data_length_code) (sentBytes m),
             Event.logForwarded m.identifier m.data_length_code]) ∧
      loopStep s ⟨RecvResult.ok m, n⟩ =
        loopStep s ⟨RecvResult.ok m, ((5 + m.data_length_code : Nat) : Int)⟩) ∧
    (n < 0 →
      loopStep s ⟨RecvResult.ok m, n⟩ =
        (s, [Event.sendCall s.sock (5 + m.data_length_code) (sentBytes m),
             Event.logSendFail])) := by
  constructor
  · intro hn
    have hlt : ¬ n < 0 := not_lt.mpr hn
    constructor
    · simp [loopStep, hlt]
    · have hlt2 : ¬ ((5 : Int) + (m.data_length_code : Int) < 0) := by omega
      simp [loopStep, hlt, hlt2]
  · intro hn
    simp [loopStep, hn]

theorem short_write_is_success_witness :
    loopStep ⟨7⟩ ⟨RecvResult.ok frame123, 3⟩ =
      (⟨7⟩, [Event.sendCall 7 7 (sentBytes frame123),
             Event.logForwarded 0x123 2]) :=
  ((short_write_is_success ⟨7⟩ frame123 3).1 (by decide)).1

/-- C10: whenever `tcp_socket` is not positive, `can_receive_task` discards
every frame silently: the whole run contains no `send` call and the task
never changes `tcp_socket` (in particular it never initiates a
reconnect — no code path in the task calls `connect_tcp`). -/
theorem dead_socket_discards (s : TcpState) (rs : List RecvResult)
    (h : s.tcp_socket ≤ 0) :
    (tcpRun s rs).1 = s ∧
    (tcpRun s rs).2.filter TcpEvent.isSend = [] := by
  induction rs with
  | nil => exact ⟨rfl, rfl⟩
  | cons r rest ih =>
    have hstep : canReceiveIter s r = (s, (canReceiveIter s r).2) ∧
        (canReceiveIter s r).2.filter TcpEvent.isSend = [] := by
      cases r with
      | ok m =>
        have hng : ¬ s.tcp_socket > 0 := by omega
        simp [canReceiveIter, hng, TcpEvent.isSend]
      | timeout => simp [canReceiveIter]
      | rxError c => simp [canReceiveIter]
    constructor
    · simp only [tcpRun]
      rw [show (canReceiveIter s r).1 = s from congrArg Prod.fst hstep.1]
      exact ih.1
    · simp only [tcpRun]
      rw [List.filter_append, hstep.2]
      simp only [List.nil_append]
      rw [show (canReceiveIter s r).1 = s from congrArg Prod.fst hstep.1]
      exact ih.2

theorem dead_socket_discards_witness :
    (tcpRun ⟨-1⟩ [RecvResult.ok frame123, RecvResult.timeout]).1 =
      (⟨-1⟩ : TcpState) ∧
    (tcpRun ⟨-1⟩ [RecvResult.ok frame123,
      RecvResult.timeout]).2.filter TcpEvent.isSend = [] :=
  dead_socket_discards ⟨-1⟩ [RecvResult.ok frame123, RecvResult.timeout]
    (by decide)
